import Mathlib

/-!
# Claim verification (`path_verify.go`)

A shallow embedding of `verifyClaim` and `pathVerifyClaim`.

The two functions are translated statement by statement.  What they call is
treated as follows.

* Small, fully specified library routines are embedded as executable
  definitions: the regular expression `\s*$` used with `ReplaceAll`,
  `strings.ToLower` on ASCII, `hexutil.Decode`, the argument checks of
  `crypto.SigToPub`, `MapClaims.Valid` and the control flow of `jwt.Parse`
  (`Parser.ParseWithClaims` of jwt-go v3).
* Everything cryptographic or encoding related (base64/JSON decoding of the
  token, Keccak-256, secp256k1 public-key recovery, address derivation,
  signature verification, the Unicode lowering table) is a field of the
  record `Lib`; every general theorem quantifies over all `Lib`.
* The wall clock (`jwt.TimeFunc`) is read twice by `verifyClaim`: once inside
  `jwt.Parse` and once by the explicit `claims.Valid()`.  The two readings are
  the explicit arguments `now₁` and `now₂` (Unix seconds).
* `verifyClaim` additionally reports the list of external calls it performed
  (ghost instrumentation), so that "stage X is never reached" can be stated.

Go strings are modelled by `String` (the token and every decoded JSON string
are valid UTF-8), byte slices by `List Nat`.
-/

namespace Trustee

/-- Go byte slice `[]byte`. -/
abbrev Bytes := List Nat

/-! ## Decoded payloads -/

/-- A value of a decoded JSON payload (`interface{}` inside `jwt.MapClaims`).
A JSON number is carried as the `int64` the validity rules convert it to;
arrays and objects are carried as their JSON text. -/
inductive Value where
  | null
  | bool (b : Bool)
  | number (n : Int)
  | string (s : String)
  | composite (json : String)
  deriving DecidableEq, Repr

/-- The Go type `jwt.MapClaims` (`map[string]interface{}`), as an association list. -/
abbrev MapClaims := List (String × Value)

/-- Map indexing `m[key]`: `none` is the nil interface of an absent key. -/
def MapClaims.get (m : MapClaims) (key : String) : Option Value :=
  m.lookup key

/-- The single-value type assertion `v.(string)`: `none` stands for the run-time
panic Go raises when `v` is nil or holds another type. -/
def assertString : Option Value → Option String
  | some (Value.string s) => some s
  | _ => none

/-- The Go type `ecdsa.PublicKey` on the fixed curve secp256k1. -/
structure PublicKey where
  X : Nat
  Y : Nat
  deriving DecidableEq, Repr

/-! ## jwt-go: errors, tokens, temporal validity -/

/-- The bit flags of `jwt.ValidationError.Errors` that can be raised here. -/
inductive ValidationFlag where
  | malformed
  | unverifiable
  | signatureInvalid
  | expired
  | issuedAt
  | notValidYet
  deriving DecidableEq, Repr

/-- The Go type `jwt.ValidationError`: the inner message and the set of flags. -/
structure ValidationError where
  inner : Option String
  errors : List ValidationFlag
  deriving DecidableEq, Repr

/-- The method `ValidationError.valid`: no flag is set. -/
def ValidationError.valid (e : ValidationError) : Bool :=
  e.errors.isEmpty

/-- What `Parser.ParseUnverified` yields on success: the signing method named by
the header, the decoded payload (`none` is a nil map), and the two strings the
signature check uses (`parts[0] + "." + parts[1]` and `parts[2]`). -/
structure Token where
  method : String
  claims : Option MapClaims
  signingString : String
  signature : String
  deriving DecidableEq, Repr

/-- Reading a possibly nil map: a nil map behaves as the empty map. -/
def Token.mapClaims (t : Token) : MapClaims :=
  t.claims.getD []

/-- From jwt-go `verifyExp`. -/
def verifyExp (exp now : Int) (required : Bool) : Bool :=
  if exp = 0 then !required else decide (now ≤ exp)

/-- From jwt-go `verifyIat`. -/
def verifyIat (iat now : Int) (required : Bool) : Bool :=
  if iat = 0 then !required else decide (iat ≤ now)

/-- From jwt-go `verifyNbf`. -/
def verifyNbf (nbf now : Int) (required : Bool) : Bool :=
  if nbf = 0 then !required else decide (nbf ≤ now)

/-- From jwt-go `MapClaims.VerifyExpiresAt`: only a numeric `exp` is compared. -/
def MapClaims.VerifyExpiresAt (m : MapClaims) (cmp : Int) (req : Bool) : Bool :=
  match m.get "exp" with
  | some (Value.number exp) => verifyExp exp cmp req
  | _ => !req

/-- From jwt-go `MapClaims.VerifyIssuedAt`. -/
def MapClaims.VerifyIssuedAt (m : MapClaims) (cmp : Int) (req : Bool) : Bool :=
  match m.get "iat" with
  | some (Value.number iat) => verifyIat iat cmp req
  | _ => !req

/-- From jwt-go `MapClaims.VerifyNotBefore`. -/
def MapClaims.VerifyNotBefore (m : MapClaims) (cmp : Int) (req : Bool) : Bool :=
  match m.get "nbf" with
  | some (Value.number nbf) => verifyNbf nbf cmp req
  | _ => !req

/-- From jwt-go `MapClaims.Valid`, with the clock reading `now` explicit:
`none` is the nil error. -/
def MapClaims.Valid (m : MapClaims) (now : Int) : Option ValidationError :=
  let v0 : ValidationError := ⟨none, []⟩
  let v1 : ValidationError :=
    if m.VerifyExpiresAt now false then v0
    else ⟨some "Token is expired", v0.errors ++ [ValidationFlag.expired]⟩
  let v2 : ValidationError :=
    if m.VerifyIssuedAt now false then v1
    else ⟨some "Token used before issued", v1.errors ++ [ValidationFlag.issuedAt]⟩
  let v3 : ValidationError :=
    if m.VerifyNotBefore now false then v2
    else ⟨some "Token is not valid yet", v2.errors ++ [ValidationFlag.notValidYet]⟩
  if v3.valid then none else some v3

/-! ## The external collaborators -/

/-- The cryptographic and encoding routines `verifyClaim` relies on. -/
structure Lib where
  /-- The method `Parser.ParseUnverified`: split, base64url-decode and JSON-decode. -/
  ParseUnverified : String → Except ValidationError Token
  /-- The call `token.Method.Verify(signingString, signature, key)`: `none` is nil. -/
  Verify : String → String → String → PublicKey → Option String
  /-- Modelled from the spec: `hashKeccak256`, a helper of this repository that is
  not part of the file at hand; it hashes the nonce with the fixed hash of the
  account scheme. -/
  hashKeccak256 : String → Bytes
  /-- Public-key recovery proper, applied once the arguments have the right shape. -/
  recoverPubkey : Bytes → Bytes → Option PublicKey
  /-- The function `crypto.PubkeyToAddress`. -/
  PubkeyToAddress : PublicKey → Bytes
  /-- The method `Address.Hex`. -/
  Hex : Bytes → String
  /-- The table of `unicode.ToLower` above ASCII. -/
  unicodeToLower : Char → Char

/-! ## Trailing whitespace -/

/-- The class `\s` of Go regular expressions: `[\t\n\f\r ]`. -/
def isSpace (c : Char) : Bool :=
  c == '\t' || c == '\n' || c == '\x0c' || c == '\r' || c == ' '

/-- The call `regexp.MustCompile("\\s*$").ReplaceAll(src, [])`.  Scanning from the
left, the pattern matches at the first position from which only `\s` characters
remain up to the end of the text; that match is replaced by nothing. -/
def replaceAllTrailingSpace : List Char → List Char
  | [] => []
  | c :: cs => if (c :: cs).all isSpace then [] else c :: replaceAllTrailingSpace cs

/-- Lines 72–73: `token` as computed from `rawToken`. -/
def tokenWithoutWhitespace (rawToken : String) : String :=
  ⟨replaceAllTrailingSpace rawToken.data⟩

/-! ## strings.ToLower -/

/-- The function `unicode.ToLower`: ASCII letters are lowered arithmetically, other
runes through the table. -/
def toLowerRune (L : Lib) (c : Char) : Char :=
  if c.toNat < 128 then c.toLower else L.unicodeToLower c

/-- The function `strings.ToLower`. -/
def ToLower (L : Lib) (s : String) : String :=
  ⟨s.data.map (toLowerRune L)⟩

/-! ## hexutil.Decode -/

/-- The errors of `hexutil.Decode`. -/
inductive HexError where
  | emptyString
  | missing0x
  | oddLength
  | invalidDigit
  deriving DecidableEq, Repr

/-- From `encoding/hex`: the value of a hexadecimal digit. -/
def fromHexChar (c : Char) : Option Nat :=
  if '0' ≤ c ∧ c ≤ '9' then some (c.toNat - 48)
  else if 'a' ≤ c ∧ c ≤ 'f' then some (c.toNat - 87)
  else if 'A' ≤ c ∧ c ≤ 'F' then some (c.toNat - 55)
  else none

/-- From `encoding/hex`: `hex.DecodeString`, pairs of digits from left to right. -/
def hexDecodeString : List Char → Except HexError Bytes
  | [] => Except.ok []
  | [c] =>
    match fromHexChar c with
    | none => Except.error HexError.invalidDigit
    | some _ => Except.error HexError.oddLength
  | p :: q :: rest =>
    match fromHexChar p, fromHexChar q with
    | some a, some b =>
      match hexDecodeString rest with
      | Except.ok bs => Except.ok ((a * 16 + b) :: bs)
      | Except.error e => Except.error e
    | _, _ => Except.error HexError.invalidDigit

/-- From `hexutil`: `has0xPrefix`, that is
`len(input) >= 2 && input[0] == '0' && (input[1] == 'x' || input[1] == 'X')`. -/
def has0x (input : List Char) : Bool :=
  decide (2 ≤ input.length) && input.getD 0 ' ' == '0' &&
    (input.getD 1 ' ' == 'x' || input.getD 1 ' ' == 'X')

/-- The function `hexutil.Decode`: "decodes a hex string with 0x prefix". -/
def hexutilDecode (input : String) : Except HexError Bytes :=
  if input.data.isEmpty then Except.error HexError.emptyString
  else if !has0x input.data then Except.error HexError.missing0x
  else hexDecodeString (input.data.drop 2)

/-! ## crypto.SigToPub -/

/-- The errors of `crypto.SigToPub`. -/
inductive RecoverError where
  | invalidMsgLen
  | invalidSignatureLen
  | invalidRecoveryID
  | recoverFailed
  deriving DecidableEq, Repr

/-- The function `crypto.SigToPub`, as in the default build of go-ethereum, where it
goes through `secp256k1.RecoverPubkey`: the shape checks of that function
(32-byte hash, 65-byte signature, recovery id below 4), then the recovery. -/
def SigToPub (L : Lib) (hash sig : Bytes) : Except RecoverError PublicKey :=
  if hash.length ≠ 32 then Except.error RecoverError.invalidMsgLen
  else if sig.length ≠ 65 then Except.error RecoverError.invalidSignatureLen
  else if 4 ≤ sig.getD 64 0 then Except.error RecoverError.invalidRecoveryID
  else
    match L.recoverPubkey hash sig with
    | some pub => Except.ok pub
    | none => Except.error RecoverError.recoverFailed

/-! ## Instrumentation and results -/

/-- The external calls a run of `verifyClaim` performs, with their arguments. -/
inductive Call where
  | ParseUnverified (token : String)
  | hashKeccak256 (data : String)
  | hexutilDecode (input : String)
  | SigToPub (hash sig : Bytes)
  | PubkeyToAddress (pub : PublicKey)
  | jwtParse (token : String)
  | Verify (signingString signature : String) (key : PublicKey)
  | Valid (claims : MapClaims)
  deriving DecidableEq, Repr

/-- The error value `verifyClaim` returns, by the `return` statement producing it. -/
inductive VerifyError where
  | cannotParseToken
  | cannotGetClaims
  | hexutil (e : HexError)
  | sigToPub (e : RecoverError)
  | jwtParse (e : ValidationError)
  | claimsInvalid (e : ValidationError)
  | errorVerifyingToken
  deriving DecidableEq, Repr

/-- How a call of `verifyClaim` ends: a run-time panic raised by the type
assertion on the named field, `return nil, nil, err`, or
`return claims, pubkey, nil`. -/
inductive Outcome where
  | panic (field : String)
  | error (err : VerifyError)
  | ok (claims : MapClaims) (pubkey : PublicKey)
  deriving DecidableEq, Repr

/-- A run of `verifyClaim`: the calls performed, in order, and the outcome. -/
structure Run where
  calls : List Call
  outcome : Outcome
  deriving DecidableEq, Repr

/-! ## jwt.Parse -/

/-- The function `jwt.Parse` (`Parser.ParseWithClaims` with a fresh `MapClaims`):
unverified parse, key lookup through `keyFunc`, claims validation at the clock
reading `now`, then the signature check with the key `keyFunc` returned.  Both
checks are run and their flags are merged. -/
def jwtParse (L : Lib) (tokenString : String)
    (keyFunc : Token → Except String PublicKey) (now : Int) :
    List Call × Except ValidationError Token :=
  match L.ParseUnverified tokenString with
  | Except.error e => ([Call.jwtParse tokenString], Except.error e)
  | Except.ok token =>
    match keyFunc token with
    | Except.error msg =>
      ([Call.jwtParse tokenString],
        Except.error ⟨some msg, [ValidationFlag.unverifiable]⟩)
    | Except.ok key =>
      let vErr : ValidationError :=
        match token.mapClaims.Valid now with
        | some e => e
        | none => ⟨none, []⟩
      let vErr : ValidationError :=
        match L.Verify token.method token.signingString token.signature key with
        | some msg => ⟨some msg, vErr.errors ++ [ValidationFlag.signatureInvalid]⟩
        | none => vErr
      ([Call.jwtParse tokenString, Call.Valid token.mapClaims,
          Call.Verify token.signingString token.signature key],
        if vErr.valid then Except.ok token else Except.error vErr)

/-! ## path_verify.go -/

/-- Lines 71–114, `verifyClaim`. -/
def verifyClaim (L : Lib) (rawToken : String) (now₁ now₂ : Int) : Run :=
  let token := tokenWithoutWhitespace rawToken
  let c₀ := [Call.ParseUnverified token]
  match L.ParseUnverified token with
  | Except.error _ => ⟨c₀, Outcome.error VerifyError.cannotParseToken⟩
  | Except.ok jwtToken =>
  match jwtToken.claims with
  | none => ⟨c₀, Outcome.error VerifyError.cannotGetClaims⟩
  | some unverifiedJwt =>
  match assertString (unverifiedJwt.get "iss") with
  | none => ⟨c₀, Outcome.panic "iss"⟩
  | some ethereumAddress =>
  match assertString (unverifiedJwt.get "jti") with
  | none => ⟨c₀, Outcome.panic "jti"⟩
  | some jti =>
  match assertString (unverifiedJwt.get "eth") with
  | none => ⟨c₀, Outcome.panic "eth"⟩
  | some signatureRaw =>
  let hash := L.hashKeccak256 jti
  let c₁ := c₀ ++ [Call.hashKeccak256 jti, Call.hexutilDecode signatureRaw]
  match hexutilDecode signatureRaw with
  | Except.error e => ⟨c₁, Outcome.error (VerifyError.hexutil e)⟩
  | Except.ok signature =>
  let c₂ := c₁ ++ [Call.SigToPub hash signature]
  match SigToPub L hash signature with
  | Except.error e => ⟨c₂, Outcome.error (VerifyError.sigToPub e)⟩
  | Except.ok pubkey =>
  let address := L.PubkeyToAddress pubkey
  let c₃ := c₂ ++ [Call.PubkeyToAddress pubkey]
  if ToLower L ethereumAddress = ToLower L (L.Hex address) then
    match jwtParse L token (fun _ => Except.ok pubkey) now₁ with
    | (cs, Except.error e) => ⟨c₃ ++ cs, Outcome.error (VerifyError.jwtParse e)⟩
    | (cs, Except.ok validateJwt) =>
      let claims := validateJwt.mapClaims
      let c₄ := c₃ ++ cs ++ [Call.Valid claims]
      match claims.Valid now₂ with
      | some e => ⟨c₄, Outcome.error (VerifyError.claimsInvalid e)⟩
      | none => ⟨c₄, Outcome.ok claims pubkey⟩
  else ⟨c₃, Outcome.error VerifyError.errorVerifyingToken⟩

/-- The Go type `logical.Response`, reduced to its `Data` field. -/
structure Response where
  Data : MapClaims
  deriving DecidableEq, Repr

/-- How a call of `pathVerifyClaim` ends: a propagated panic, or the returned pair
`(response, error)` with `none` for nil. -/
inductive PathResult where
  | panic (field : String)
  | ret (resp : Option Response) (err : Option String)
  deriving DecidableEq, Repr

/-- Lines 56–69, `pathVerifyClaim`.  `configured` is the error returned by
`b.configured` (`none` when the backend is configured); `rawToken` is the
string field `token` of the request. -/
def pathVerifyClaim (L : Lib) (configured : Option String) (rawToken : String)
    (now₁ now₂ : Int) : PathResult :=
  match configured with
  | some err => PathResult.ret none (some err)
  | none =>
    match (verifyClaim L rawToken now₁ now₂).outcome with
    | Outcome.panic field => PathResult.panic field
    | Outcome.ok claims _ => PathResult.ret (some ⟨claims⟩) none
    | Outcome.error _ => PathResult.ret none (some "Error verifying token")

/-! ## Vocabulary for the statements -/

/-- The first two stages succeed on `rawToken`: the stripped token parses into
`jwtToken` with payload `payload`, the fields `iss`, `jti`, `eth` are the strings
`iss`, `jti`, `eth`, the proof decodes to `signature`, and `pubkey` is the key
recovered from the hash of `jti` and `signature`. -/
structure Recovered (L : Lib) (rawToken : String) (jwtToken : Token) (payload : MapClaims)
    (iss jti eth : String) (signature : Bytes) (pubkey : PublicKey) : Prop where
  parsed : L.ParseUnverified (tokenWithoutWhitespace rawToken) = Except.ok jwtToken
  claims : jwtToken.claims = some payload
  issuer : assertString (payload.get "iss") = some iss
  nonce : assertString (payload.get "jti") = some jti
  proof : assertString (payload.get "eth") = some eth
  decoded : hexutilDecode eth = Except.ok signature
  recovered : SigToPub L (L.hashKeccak256 jti) signature = Except.ok pubkey

/-- The calls of the first two stages, up to the address derivation. -/
def recoveryCalls (L : Lib) (rawToken jti eth : String) (signature : Bytes)
    (pubkey : PublicKey) : List Call :=
  [Call.ParseUnverified (tokenWithoutWhitespace rawToken), Call.hashKeccak256 jti,
   Call.hexutilDecode eth, Call.SigToPub (L.hashKeccak256 jti) signature,
   Call.PubkeyToAddress pubkey]

/-- The calls of the verified parse with the key `key`. -/
def verifierCalls (rawToken : String) (jwtToken : Token) (payload : MapClaims)
    (key : PublicKey) : List Call :=
  [Call.jwtParse (tokenWithoutWhitespace rawToken), Call.Valid payload,
   Call.Verify jwtToken.signingString jwtToken.signature key]

/-- Two strings differ at most in the case of ASCII letters. -/
def sameUpToCase (a b : String) : Prop :=
  a.data.length = b.data.length ∧
    ∀ p ∈ a.data.zip b.data,
      p.1 = p.2 ∨ (p.1.toNat < 128 ∧ p.2.toNat < 128 ∧ p.1.toLower = p.2.toLower)

instance (a b : String) : Decidable (sameUpToCase a b) := by
  unfold sameUpToCase
  infer_instance

/-- A character is a hexadecimal digit. -/
def isHexDigit (c : Char) : Bool :=
  (fromHexChar c).isSome

/-! ## A concrete scenario

One key pair, the nonce `abc123` and a handful of tokens built from them.  The
record `Sample.lib` tabulates the external routines on exactly these values
(Keccak-256 of the nonce, the secp256k1 signature over it with its recovery id,
the address derived from the key, the decoded payloads and the ES256 signatures
of the tokens); on anything else it reports failure.  It is used to run the
definitions above on concrete tokens. -/

namespace Sample

/-- Header segment: the JSON object with `alg` ES256 and `typ` JWT. -/
def header : String := "eyJhbGciOiJFUzI1NiIsInR5cCI6IkpXVCJ9"

/-- The public key of the signer. -/
def pubkey : PublicKey :=
  ⟨35385541226028894825555467128128671373941486989761725932141865559214302551662,
   32561595637020384687309119980371241742624432083357643089174354987608241166046⟩

/-- The address derived from `pubkey`. -/
def address : Bytes :=
  [44, 117, 54, 227, 96, 93, 156, 22, 167, 163, 215, 177, 137, 142, 82, 147, 150, 166, 92, 35]

/-- The checksummed text of `address`. -/
def addressHex : String := "0x2c7536E3605D9C16a7a3D7b1898e529396a65c23"

/-- The issuer as written in the payloads: the address in lower case. -/
def issuer : String := "0x2c7536e3605d9c16a7a3d7b1898e529396a65c23"

/-- The hash of the nonce `abc123`: Keccak-256 of its bytes, as the spec describes
`hashKeccak256`. -/
def nonceHash : Bytes :=
  [113, 154, 204, 198, 26, 156, 193, 38, 131, 14, 89, 6, 249, 214, 114, 208, 110, 171, 111, 133, 151, 40, 112, 149, 162, 197, 90, 139, 119, 94, 112, 22]

/-- The recoverable signature of `nonceHash` under the signer's key: r, s, v. -/
def proofBytes : Bytes :=
  [194, 226, 163, 10, 8, 183, 172, 140, 114, 91, 228, 57, 240, 200, 111, 193, 196, 239, 57, 23, 40, 11, 115, 131, 222, 60, 99, 227, 0, 125, 37, 68, 23, 129, 134, 254, 128, 208, 41, 209, 156, 121, 187, 201, 224, 83, 54, 221, 50, 29, 197, 243, 49, 195, 79, 0, 71, 0, 97, 3, 118, 58, 80, 168, 1]

/-- The 130 hexadecimal digits of `proofBytes`. -/
def proofDigits : String :=
  "c2e2a30a08b7ac8c725be439f0c86fc1c4ef3917280b7383de3c63e3007d2544178186fe80d029d19c79bbc9e05336dd321dc5f331c34f0047006103763a50a801"

/-- Payload segment: payload with the proof `0x`-prefixed and `exp` 1700000000. -/
def segGood : String :=
  "eyJpc3MiOiIweDJjNzUzNmUzNjA1ZDljMTZhN2EzZDdiMTg5OGU1MjkzOTZhNjVjMjMiLCJqdGkiOiJhYmMxMjMiLCJldGgiOiIweGMyZTJhMzBhMDhiN2FjOGM3MjViZTQzOWYwYzg2ZmMxYzRlZjM5MTcyODBiNzM4M2RlM2M2M2UzMDA3ZDI1NDQxNzgxODZmZTgwZDAyOWQxOWM3OWJiYzllMDUzMzZkZDMyMWRjNWYzMzFjMzRmMDA0NzAwNjEwMzc2M2E1MGE4MDEiLCJleHAiOjE3MDAwMDAwMDB9"

/-- Signature segment of the token with payload `segGood`, by the signer. -/
def sigGood : String :=
  "jaQLRsvpzmJzgmjx0oP_BR2eXwiOZYjL9mBx_BtjRHvsFyIDkUk5nwpyD0pCUSUW_PSRjTlQeoQzAjptIwrKcg"

/-- Payload segment: the same payload with `exp` 0. -/
def segZeroExp : String :=
  "eyJpc3MiOiIweDJjNzUzNmUzNjA1ZDljMTZhN2EzZDdiMTg5OGU1MjkzOTZhNjVjMjMiLCJqdGkiOiJhYmMxMjMiLCJldGgiOiIweGMyZTJhMzBhMDhiN2FjOGM3MjViZTQzOWYwYzg2ZmMxYzRlZjM5MTcyODBiNzM4M2RlM2M2M2UzMDA3ZDI1NDQxNzgxODZmZTgwZDAyOWQxOWM3OWJiYzllMDUzMzZkZDMyMWRjNWYzMzFjMzRmMDA0NzAwNjEwMzc2M2E1MGE4MDEiLCJleHAiOjB9"

/-- Signature segment of the token with payload `segZeroExp`, by the signer. -/
def sigZeroExp : String :=
  "D4j1ADLyMouf-gFeDF34KgPIU_KCChwiUD_I-dQq8uURm1VsboLLSDjNGrleGGT2sd5zlPbZ_os4ILHAPCzqRw"

/-- Payload segment: the payload of `segGood` with the proof written without `0x`. -/
def segBareProof : String :=
  "eyJpc3MiOiIweDJjNzUzNmUzNjA1ZDljMTZhN2EzZDdiMTg5OGU1MjkzOTZhNjVjMjMiLCJqdGkiOiJhYmMxMjMiLCJldGgiOiJjMmUyYTMwYTA4YjdhYzhjNzI1YmU0MzlmMGM4NmZjMWM0ZWYzOTE3MjgwYjczODNkZTNjNjNlMzAwN2QyNTQ0MTc4MTg2ZmU4MGQwMjlkMTljNzliYmM5ZTA1MzM2ZGQzMjFkYzVmMzMxYzM0ZjAwNDcwMDYxMDM3NjNhNTBhODAxIiwiZXhwIjoxNzAwMDAwMDAwfQ"

/-- Signature segment of the token with payload `segBareProof`, by the signer. -/
def sigBareProof : String :=
  "jpoQBysJzSpALBoXgnVFqMaRrcfO5yOG9_YMjvqQLB3d89V1kn-Zybi7GVXkogqDG1n2CzpBQwospq0s9ZmSNA"

/-- Payload segment: the payload of `segGood` with the last byte of the proof dropped. -/
def segShortProof : String :=
  "eyJpc3MiOiIweDJjNzUzNmUzNjA1ZDljMTZhN2EzZDdiMTg5OGU1MjkzOTZhNjVjMjMiLCJqdGkiOiJhYmMxMjMiLCJldGgiOiIweGMyZTJhMzBhMDhiN2FjOGM3MjViZTQzOWYwYzg2ZmMxYzRlZjM5MTcyODBiNzM4M2RlM2M2M2UzMDA3ZDI1NDQxNzgxODZmZTgwZDAyOWQxOWM3OWJiYzllMDUzMzZkZDMyMWRjNWYzMzFjMzRmMDA0NzAwNjEwMzc2M2E1MGE4IiwiZXhwIjoxNzAwMDAwMDAwfQ"

/-- Signature segment of the token with payload `segShortProof`, by the signer. -/
def sigShortProof : String :=
  "6A6p5Ugk85lh3UaT8GbOSVthqZD3sLSQZc7Ss5JjyLGLRJOnmlBwvG6ffYcME-rlu9YUOZ1i6ziPGBpAk-gHIw"

/-- Payload segment: the empty JSON object. -/
def segEmpty : String :=
  "e30"

/-- Signature segment of the token with payload `segEmpty`, by the signer. -/
def sigEmpty : String :=
  "9MnoNTymZCSsCAtHUPI-qxLTCgEjwq1DEY2c7eZh433bcxs9zn-fTx9M5fEOAykeZIv49NbV6J-0GEby4-78qw"

/-- Signature segment over `header` and `segGood` made with another key. -/
def sigForged : String :=
  "V84q9hdJUwcMLsYs43R53jsh6EQ9D5CncEtpDXqk5W6HPtF5QvDozK-GDWauy1NSDbxx0L1LcW_arh4piAJJWA"

/-- The token assembled from a payload segment and a signature segment. -/
def token (seg sig : String) : String :=
  header ++ "." ++ seg ++ "." ++ sig

/-- A token with a lower-case issuer, a prefixed proof and `exp` 1700000000. -/
def tokenGood : String := token segGood sigGood

/-- As `tokenGood`, with `exp` 0. -/
def tokenZeroExp : String := token segZeroExp sigZeroExp

/-- As `tokenGood`, with the proof written as bare hexadecimal digits. -/
def tokenBareProof : String := token segBareProof sigBareProof

/-- As `tokenGood`, with a proof of 64 bytes. -/
def tokenShortProof : String := token segShortProof sigShortProof

/-- A token whose payload is the empty object. -/
def tokenEmpty : String := token segEmpty sigEmpty

/-- The payload of `tokenGood` under a signature made with another key. -/
def tokenForged : String := token segGood sigForged

/-- The decoded payload of `segGood`, up to the value of `eth` and `exp`. -/
def payload (eth : String) (exp : Int) : MapClaims :=
  [("iss", Value.string issuer), ("jti", Value.string "abc123"),
   ("eth", Value.string eth), ("exp", Value.number exp)]

/-- Base64url and JSON decoding of the payload segments above. -/
def payloads : List (String × MapClaims) :=
  [(segGood, payload ("0x" ++ proofDigits) 1700000000),
   (segZeroExp, payload ("0x" ++ proofDigits) 0),
   (segBareProof, payload proofDigits 1700000000),
   (segShortProof, payload ⟨("0x" ++ proofDigits).data.take 130⟩ 1700000000),
   (segEmpty, [])]

/-- The function `strings.Split(s, ".")`. -/
def splitDots : List Char → List (List Char)
  | [] => [[]]
  | c :: cs =>
    match splitDots cs with
    | [] => [[c]]
    | p :: ps => if c = '.' then [] :: p :: ps else (c :: p) :: ps

/-- The unverified parse on the tokens of the scenario. -/
def ParseUnverified (tokenString : String) : Except ValidationError Token :=
  match splitDots tokenString.data with
  | [h, p, g] =>
    if String.mk h = header then
      match payloads.lookup (String.mk p) with
      | some m => Except.ok ⟨"ES256", some m, String.mk (h ++ '.' :: p), String.mk g⟩
      | none => Except.error ⟨some "payload outside the scenario", [ValidationFlag.malformed]⟩
    else Except.error ⟨some "header outside the scenario", [ValidationFlag.malformed]⟩
  | _ =>
    Except.error
      ⟨some "token contains an invalid number of segments", [ValidationFlag.malformed]⟩

/-- The payload and signature segments signed by the signer's key. -/
def signed : List (String × String) :=
  [(segGood, sigGood), (segZeroExp, sigZeroExp), (segBareProof, sigBareProof),
   (segShortProof, sigShortProof), (segEmpty, sigEmpty)]

/-- The ES256 signature check on the tokens of the scenario. -/
def Verify (method signingString signature : String) (key : PublicKey) : Option String :=
  if method = "ES256" ∧ key = pubkey ∧
      signed.any (fun p => signingString = header ++ "." ++ p.1 && signature = p.2) then
    none
  else some "crypto/ecdsa: verification error"

/-- The external routines, tabulated on the values of the scenario. -/
def lib : Lib where
  ParseUnverified := ParseUnverified
  Verify := Verify
  hashKeccak256 := fun data => if data = "abc123" then nonceHash else []
  recoverPubkey := fun hash sig =>
    if hash = nonceHash ∧ sig = proofBytes then some pubkey else none
  PubkeyToAddress := fun pub => if pub = pubkey then address else []
  Hex := fun a => if a = address then addressHex else ""
  unicodeToLower := fun c => c

end Sample

/-! # Theorems -/

/-! ## Properties of the whitespace stripping -/

theorem isSpace_iff (c : Char) :
    isSpace c = true ↔ c ∈ [' ', '\t', '\n', '\r', '\x0c'] := by
  simp only [isSpace, Bool.or_eq_true, beq_iff_eq, List.mem_cons, List.mem_singleton,
    List.mem_nil_iff, or_false]
  tauto

theorem replaceAllTrailingSpace_eq_nil (w : List Char) (hw : w.all isSpace = true) :
    replaceAllTrailingSpace w = [] := by
  cases w with
  | nil => rfl
  | cons c cs => simp [replaceAllTrailingSpace, hw]

theorem replaceAllTrailingSpace_append (t w : List Char) (hw : w.all isSpace = true) :
    replaceAllTrailingSpace (t ++ w) = replaceAllTrailingSpace t := by
  induction t with
  | nil => simpa [replaceAllTrailingSpace] using replaceAllTrailingSpace_eq_nil w hw
  | cons c cs ih =>
    have hall : (c :: (cs ++ w)).all isSpace = (c :: cs).all isSpace := by
      simp only [List.all_cons, List.all_append, hw, Bool.and_true]
    show replaceAllTrailingSpace (c :: (cs ++ w)) = replaceAllTrailingSpace (c :: cs)
    rw [replaceAllTrailingSpace, replaceAllTrailingSpace, hall, ih]

theorem replaceAllTrailingSpace_split (t : List Char) :
    ∃ ws : List Char, ws.all isSpace = true ∧ t = replaceAllTrailingSpace t ++ ws := by
  induction t with
  | nil => exact ⟨[], rfl, rfl⟩
  | cons c cs ih =>
    by_cases h : (c :: cs).all isSpace = true
    · exact ⟨c :: cs, h, by simp [replaceAllTrailingSpace, h]⟩
    · obtain ⟨ws, hws, heq⟩ := ih
      refine ⟨ws, hws, ?_⟩
      simp only [replaceAllTrailingSpace, h, Bool.false_eq_true, if_false, List.cons_append]
      exact congrArg (c :: ·) heq

theorem all_isSpace_of_replaceAll_eq_nil (t : List Char)
    (h : replaceAllTrailingSpace t = []) : t.all isSpace = true := by
  cases t with
  | nil => rfl
  | cons c cs =>
    by_cases hall : (c :: cs).all isSpace = true
    · exact hall
    · simp [replaceAllTrailingSpace, hall] at h

theorem replaceAllTrailingSpace_getLast (t : List Char) (c : Char)
    (h : (replaceAllTrailingSpace t).getLast? = some c) : isSpace c = false := by
  induction t with
  | nil => simp [replaceAllTrailingSpace] at h
  | cons d ds ih =>
    by_cases hall : (d :: ds).all isSpace = true
    · simp [replaceAllTrailingSpace, hall] at h
    · simp only [replaceAllTrailingSpace, hall, Bool.false_eq_true, if_false] at h
      cases hr : replaceAllTrailingSpace ds with
      | nil =>
        rw [hr] at h
        simp only [List.getLast?_singleton, Option.some.injEq] at h
        subst h
        have hds := all_isSpace_of_replaceAll_eq_nil ds hr
        simp only [List.all_cons, hds, Bool.and_true] at hall
        simpa using hall
      | cons e es =>
        apply ih
        rw [hr] at h ⊢
        simpa [List.getLast?_cons_cons] using h

theorem tokenWithoutWhitespace_append (t w : String) (hw : w.data.all isSpace = true) :
    tokenWithoutWhitespace (t ++ w) = tokenWithoutWhitespace t := by
  simp only [tokenWithoutWhitespace, String.data_append]
  rw [replaceAllTrailingSpace_append _ _ hw]

/-- The result of `verifyClaim` depends on the raw token only through the token
with its trailing whitespace removed. -/
theorem verifyClaim_congr (L : Lib) (a b : String) (now₁ now₂ : Int)
    (h : tokenWithoutWhitespace a = tokenWithoutWhitespace b) :
    verifyClaim L a now₁ now₂ = verifyClaim L b now₁ now₂ := by
  simp only [verifyClaim, h]

/-- C5: appending any run of whitespace characters (space, tab, newline,
carriage return, form feed) to a token does not change what `verifyClaim`
returns; the stripping step removes a trailing run of such characters and
nothing else, and that run is maximal: what is left does not end in one. -/
theorem trailing_whitespace_irrelevant (L : Lib) (t w : String) (now₁ now₂ : Int)
    (hw : ∀ c ∈ w.data, c ∈ [' ', '\t', '\n', '\r', '\x0c']) :
    verifyClaim L (t ++ w) now₁ now₂ = verifyClaim L t now₁ now₂ ∧
    (∃ ws : List Char, (∀ c ∈ ws, c ∈ [' ', '\t', '\n', '\r', '\x0c']) ∧
      t.data = (tokenWithoutWhitespace t).data ++ ws) ∧
    (∀ c, (tokenWithoutWhitespace t).data.getLast? = some c →
      c ∉ [' ', '\t', '\n', '\r', '\x0c']) := by
  have hw' : w.data.all isSpace = true := by
    rw [List.all_eq_true]
    intro c hc
    exact (isSpace_iff c).mpr (hw c hc)
  refine ⟨verifyClaim_congr L _ _ _ _ (tokenWithoutWhitespace_append t w hw'), ?_, ?_⟩
  · obtain ⟨ws, hws, heq⟩ := replaceAllTrailingSpace_split t.data
    refine ⟨ws, ?_, heq⟩
    intro c hc
    exact (isSpace_iff c).mp (List.all_eq_true.mp hws c hc)
  · intro c hc hmem
    have := replaceAllTrailingSpace_getLast t.data c hc
    rw [(isSpace_iff c).mpr hmem] at this
    exact Bool.noConfusion this

set_option maxRecDepth 100000 in
theorem trailing_whitespace_irrelevant_witness :
    verifyClaim Sample.lib (Sample.tokenGood ++ " \n") 1600000000 1600000000
        = verifyClaim Sample.lib Sample.tokenGood 1600000000 1600000000 ∧
      (verifyClaim Sample.lib Sample.tokenGood 1600000000 1600000000).outcome
        = Outcome.ok (Sample.payload ("0x" ++ Sample.proofDigits) 1700000000) Sample.pubkey :=
  ⟨(trailing_whitespace_irrelevant Sample.lib Sample.tokenGood " \n" 1600000000 1600000000
      (by decide)).1, by rfl⟩

/-! ## The stages of `verifyClaim` -/

theorem Valid_some_not_valid (m : MapClaims) (now : Int) (e : ValidationError)
    (h : m.Valid now = some e) : e.valid = false := by
  have key : ∀ v : ValidationError,
      (if v.valid = true then none else some v) = some e → e.valid = false := by
    intro v hv
    by_cases hvv : v.valid = true
    · simp [hvv] at hv
    · simp only [hvv, Bool.false_eq_true, if_false, Option.some.injEq] at hv
      subst hv
      simpa using hvv
  exact key _ h

theorem jwtParse_of_parsed (L : Lib) (token : String) (jwtToken : Token) (payload : MapClaims)
    (key : PublicKey) (now : Int)
    (hp : L.ParseUnverified token = Except.ok jwtToken) (hc : jwtToken.claims = some payload) :
    jwtParse L token (fun _ => Except.ok key) now =
      ([Call.jwtParse token, Call.Valid payload,
          Call.Verify jwtToken.signingString jwtToken.signature key],
        match payload.Valid now,
            L.Verify jwtToken.method jwtToken.signingString jwtToken.signature key with
        | none, none => Except.ok jwtToken
        | some e, none => Except.error e
        | none, some msg => Except.error ⟨some msg, [ValidationFlag.signatureInvalid]⟩
        | some e, some msg =>
          Except.error ⟨some msg, e.errors ++ [ValidationFlag.signatureInvalid]⟩) := by
  have hm : jwtToken.mapClaims = payload := by simp [Token.mapClaims, hc]
  have hv : ∀ e, payload.Valid now = some e → e.valid = false :=
    fun e he => Valid_some_not_valid payload now e he
  simp only [jwtParse, hp, hm]
  cases h1 : payload.Valid now with
  | none =>
    cases h2 : L.Verify jwtToken.method jwtToken.signingString jwtToken.signature key with
    | none => simp [ValidationError.valid]
    | some msg => simp [ValidationError.valid]
  | some e =>
    cases h2 : L.Verify jwtToken.method jwtToken.signingString jwtToken.signature key with
    | none => simp [hv e h1]
    | some msg => simp [ValidationError.valid]

/-- When the issuer does not match the derived address, `verifyClaim` stops with
the generic error right after the address derivation. -/
theorem verifyClaim_mismatch (L : Lib) (rawToken : String) (now₁ now₂ : Int)
    (jwtToken : Token) (payload : MapClaims) (iss jti eth : String) (signature : Bytes)
    (pubkey : PublicKey)
    (h : Recovered L rawToken jwtToken payload iss jti eth signature pubkey)
    (hne : ToLower L iss ≠ ToLower L (L.Hex (L.PubkeyToAddress pubkey))) :
    verifyClaim L rawToken now₁ now₂ =
      ⟨recoveryCalls L rawToken jti eth signature pubkey,
        Outcome.error VerifyError.errorVerifyingToken⟩ := by
  simp [verifyClaim, recoveryCalls, h.parsed, h.claims, h.issuer, h.nonce, h.proof,
    h.decoded, h.recovered, hne]

/-- When the issuer matches the derived address, `verifyClaim` runs the verified
parse with the recovered key and returns according to its result and to the
final validity check. -/
theorem verifyClaim_match (L : Lib) (rawToken : String) (now₁ now₂ : Int)
    (jwtToken : Token) (payload : MapClaims) (iss jti eth : String) (signature : Bytes)
    (pubkey : PublicKey)
    (h : Recovered L rawToken jwtToken payload iss jti eth signature pubkey)
    (heq : ToLower L iss = ToLower L (L.Hex (L.PubkeyToAddress pubkey))) :
    verifyClaim L rawToken now₁ now₂ =
      match payload.Valid now₁,
          L.Verify jwtToken.method jwtToken.signingString jwtToken.signature pubkey with
      | none, none =>
        ⟨recoveryCalls L rawToken jti eth signature pubkey ++
            verifierCalls rawToken jwtToken payload pubkey ++ [Call.Valid payload],
          match payload.Valid now₂ with
          | none => Outcome.ok payload pubkey
          | some e => Outcome.error (VerifyError.claimsInvalid e)⟩
      | some e, none =>
        ⟨recoveryCalls L rawToken jti eth signature pubkey ++
            verifierCalls rawToken jwtToken payload pubkey,
          Outcome.error (VerifyError.jwtParse e)⟩
      | none, some msg =>
        ⟨recoveryCalls L rawToken jti eth signature pubkey ++
            verifierCalls rawToken jwtToken payload pubkey,
          Outcome.error (VerifyError.jwtParse ⟨some msg, [ValidationFlag.signatureInvalid]⟩)⟩
      | some e, some msg =>
        ⟨recoveryCalls L rawToken jti eth signature pubkey ++
            verifierCalls rawToken jwtToken payload pubkey,
          Outcome.error (VerifyError.jwtParse
            ⟨some msg, e.errors ++ [ValidationFlag.signatureInvalid]⟩)⟩ := by
  have hm : jwtToken.mapClaims = payload := by simp [Token.mapClaims, h.claims]
  simp only [verifyClaim, h.parsed, h.claims, h.issuer, h.nonce, h.proof,
    h.decoded, h.recovered, heq, if_true,
    jwtParse_of_parsed L _ jwtToken payload pubkey now₁ h.parsed h.claims]
  cases h1 : payload.Valid now₁ with
  | none =>
    cases h2 : L.Verify jwtToken.method jwtToken.signingString jwtToken.signature pubkey with
    | none =>
      cases h3 : payload.Valid now₂ with
      | none => simp [recoveryCalls, verifierCalls, hm, h3]
      | some e => simp [recoveryCalls, verifierCalls, hm, h3]
    | some msg => simp [recoveryCalls, verifierCalls]
  | some e =>
    cases h2 : L.Verify jwtToken.method jwtToken.signingString jwtToken.signature pubkey with
    | none => simp [recoveryCalls, verifierCalls]
    | some msg => simp [recoveryCalls, verifierCalls]

/-- Success of `verifyClaim` determines every stage: the first two stages
succeeded with the returned key, the binding check passed, the signature
verified under that key and the payload was valid at both clock readings. -/
theorem verifyClaim_ok_inv (L : Lib) (rawToken : String) (now₁ now₂ : Int)
    (claims : MapClaims) (key : PublicKey)
    (h : (verifyClaim L rawToken now₁ now₂).outcome = Outcome.ok claims key) :
    ∃ jwtToken iss jti eth signature,
      Recovered L rawToken jwtToken claims iss jti eth signature key ∧
      ToLower L iss = ToLower L (L.Hex (L.PubkeyToAddress key)) ∧
      L.Verify jwtToken.method jwtToken.signingString jwtToken.signature key = none ∧
      claims.Valid now₁ = none ∧ claims.Valid now₂ = none ∧
      (verifyClaim L rawToken now₁ now₂).calls =
        recoveryCalls L rawToken jti eth signature key ++
          verifierCalls rawToken jwtToken claims key ++ [Call.Valid claims] := by
  cases hp : L.ParseUnverified (tokenWithoutWhitespace rawToken) with
  | error e => simp [verifyClaim, hp] at h
  | ok jwtToken =>
  cases hc : jwtToken.claims with
  | none => simp [verifyClaim, hp, hc] at h
  | some payload =>
  cases hi : assertString (payload.get "iss") with
  | none => simp [verifyClaim, hp, hc, hi] at h
  | some iss =>
  cases hj : assertString (payload.get "jti") with
  | none => simp [verifyClaim, hp, hc, hi, hj] at h
  | some jti =>
  cases he : assertString (payload.get "eth") with
  | none => simp [verifyClaim, hp, hc, hi, hj, he] at h
  | some eth =>
  cases hd : hexutilDecode eth with
  | error e => simp [verifyClaim, hp, hc, hi, hj, he, hd] at h
  | ok signature =>
  cases hr : SigToPub L (L.hashKeccak256 jti) signature with
  | error e => simp [verifyClaim, hp, hc, hi, hj, he, hd, hr] at h
  | ok pubkey =>
  have R : Recovered L rawToken jwtToken payload iss jti eth signature pubkey :=
    ⟨hp, hc, hi, hj, he, hd, hr⟩
  by_cases hb : ToLower L iss = ToLower L (L.Hex (L.PubkeyToAddress pubkey))
  · have hm := verifyClaim_match L rawToken now₁ now₂ jwtToken payload iss jti eth
      signature pubkey R hb
    rw [hm] at h ⊢
    cases h1 : payload.Valid now₁ with
    | some e =>
      cases h2 : L.Verify jwtToken.method jwtToken.signingString jwtToken.signature pubkey
        <;> simp [h1, h2] at h
    | none =>
      cases h2 : L.Verify jwtToken.method jwtToken.signingString jwtToken.signature pubkey with
      | some msg => simp [h1, h2] at h
      | none =>
        cases h3 : payload.Valid now₂ with
        | some e => simp [h1, h2, h3] at h
        | none =>
          simp only [h1, h2, h3, Outcome.ok.injEq] at h
          obtain ⟨hpl, hk⟩ := h
          subst hpl
          subst hk
          exact ⟨jwtToken, iss, jti, eth, signature, R, hb, h2, h1, h3, rfl⟩
  · rw [verifyClaim_mismatch L rawToken now₁ now₂ jwtToken payload iss jti eth
      signature pubkey R hb] at h
    simp at h

theorem ToLower_of_sameUpToCase (L : Lib) (a b : String) (h : sameUpToCase a b) :
    ToLower L a = ToLower L b := by
  obtain ⟨hl, hp⟩ := h
  have key : ∀ (xs ys : List Char), xs.length = ys.length →
      (∀ p ∈ xs.zip ys,
        p.1 = p.2 ∨ (p.1.toNat < 128 ∧ p.2.toNat < 128 ∧ p.1.toLower = p.2.toLower)) →
      xs.map (toLowerRune L) = ys.map (toLowerRune L) := by
    intro xs
    induction xs with
    | nil =>
      intro ys hlen _
      cases ys with
      | nil => rfl
      | cons y ys => simp at hlen
    | cons x xs ih =>
      intro ys hlen hall
      cases ys with
      | nil => simp at hlen
      | cons y ys =>
        have hxy := hall (x, y) (by simp)
        have htl := ih ys (by simpa using hlen)
          (fun p hp => hall p (by simp only [List.zip_cons_cons, List.mem_cons]; exact Or.inr hp))
        have hhd : toLowerRune L x = toLowerRune L y := by
          rcases hxy with hxy | ⟨hx, hy, hxy⟩
          · simp only at hxy
            rw [hxy]
          · simp only at hx hy hxy
            simp [toLowerRune, hx, hy, hxy]
        simp [hhd, htl]
  simp only [ToLower, key a.data b.data hl hp]

/-- C1: once a key has been recovered, the verified parse is run with that key
exactly when the lower-cased issuer equals the lower-cased text of the derived
address.  When the two differ, `verifyClaim` returns the generic error, performs
no verified parse and no signature check, and returns no key.  An issuer that
differs from the derived address only in letter case passes the check. -/
theorem issuer_binding (L : Lib) (rawToken : String) (now₁ now₂ : Int)
    (jwtToken : Token) (payload : MapClaims) (iss jti eth : String) (signature : Bytes)
    (pubkey : PublicKey)
    (h : Recovered L rawToken jwtToken payload iss jti eth signature pubkey) :
    ((Call.jwtParse (tokenWithoutWhitespace rawToken) ∈ (verifyClaim L rawToken now₁ now₂).calls ∧
        Call.Verify jwtToken.signingString jwtToken.signature pubkey ∈
          (verifyClaim L rawToken now₁ now₂).calls) ↔
      ToLower L iss = ToLower L (L.Hex (L.PubkeyToAddress pubkey))) ∧
    (ToLower L iss ≠ ToLower L (L.Hex (L.PubkeyToAddress pubkey)) →
      (verifyClaim L rawToken now₁ now₂).outcome
          = Outcome.error VerifyError.errorVerifyingToken ∧
        (∀ t, Call.jwtParse t ∉ (verifyClaim L rawToken now₁ now₂).calls) ∧
        (∀ ss sg k, Call.Verify ss sg k ∉ (verifyClaim L rawToken now₁ now₂).calls) ∧
        (∀ c k, (verifyClaim L rawToken now₁ now₂).outcome ≠ Outcome.ok c k)) ∧
    (sameUpToCase iss (L.Hex (L.PubkeyToAddress pubkey)) →
      ToLower L iss = ToLower L (L.Hex (L.PubkeyToAddress pubkey))) := by
  have hmis : ToLower L iss ≠ ToLower L (L.Hex (L.PubkeyToAddress pubkey)) →
      (verifyClaim L rawToken now₁ now₂).outcome
          = Outcome.error VerifyError.errorVerifyingToken ∧
        (∀ t, Call.jwtParse t ∉ (verifyClaim L rawToken now₁ now₂).calls) ∧
        (∀ ss sg k, Call.Verify ss sg k ∉ (verifyClaim L rawToken now₁ now₂).calls) ∧
        (∀ c k, (verifyClaim L rawToken now₁ now₂).outcome ≠ Outcome.ok c k) := by
    intro hne
    rw [verifyClaim_mismatch L rawToken now₁ now₂ jwtToken payload iss jti eth
      signature pubkey h hne]
    simp [recoveryCalls]
  refine ⟨⟨?_, ?_⟩, hmis, ToLower_of_sameUpToCase L _ _⟩
  · intro hcalls
    by_contra hne
    exact (hmis hne).2.1 _ hcalls.1
  · intro heq
    rw [verifyClaim_match L rawToken now₁ now₂ jwtToken payload iss jti eth
      signature pubkey h heq]
    cases payload.Valid now₁ <;>
      cases L.Verify jwtToken.method jwtToken.signingString jwtToken.signature pubkey <;>
      simp [verifierCalls]

/-- The scenario: the first two stages succeed on `Sample.tokenGood`. -/
theorem Sample.recovered_tokenGood :
    Recovered Sample.lib Sample.tokenGood
      ⟨"ES256", some (Sample.payload ("0x" ++ Sample.proofDigits) 1700000000),
        Sample.header ++ "." ++ Sample.segGood, Sample.sigGood⟩
      (Sample.payload ("0x" ++ Sample.proofDigits) 1700000000)
      Sample.issuer "abc123" ("0x" ++ Sample.proofDigits) Sample.proofBytes Sample.pubkey := by
  set_option maxRecDepth 100000 in
  exact ⟨by rfl, by rfl, by rfl, by rfl, by rfl, by rfl, by rfl⟩

set_option maxRecDepth 100000 in
theorem issuer_binding_witness :
    Recovered Sample.lib Sample.tokenGood
      ⟨"ES256", some (Sample.payload ("0x" ++ Sample.proofDigits) 1700000000),
        Sample.header ++ "." ++ Sample.segGood, Sample.sigGood⟩
      (Sample.payload ("0x" ++ Sample.proofDigits) 1700000000)
      Sample.issuer "abc123" ("0x" ++ Sample.proofDigits) Sample.proofBytes Sample.pubkey ∧
    Sample.issuer ≠ Sample.lib.Hex (Sample.lib.PubkeyToAddress Sample.pubkey) ∧
    sameUpToCase Sample.issuer (Sample.lib.Hex (Sample.lib.PubkeyToAddress Sample.pubkey)) ∧
    Call.Verify (Sample.header ++ "." ++ Sample.segGood) Sample.sigGood Sample.pubkey ∈
      (verifyClaim Sample.lib Sample.tokenGood 1600000000 1600000000).calls :=
  ⟨Sample.recovered_tokenGood, by decide, by decide,
    ((issuer_binding Sample.lib Sample.tokenGood 1600000000 1600000000 _ _ _ _ _ _ _
      Sample.recovered_tokenGood).1.mpr
      ((issuer_binding Sample.lib Sample.tokenGood 1600000000 1600000000 _ _ _ _ _ _ _
        Sample.recovered_tokenGood).2.2 (by decide))).2⟩

/-- C2: when `verifyClaim` succeeds, the key it returns is the key recovered from
the hash of `jti` and the decoded `eth`, the token's signature verified under
that key, and every signature check of the run was made with that key.  And a
token whose signature does not verify under the recovered key is rejected by the
verified parse although parsing, recovery and the issuer binding all passed. -/
theorem verified_with_recovered_key (L : Lib) (rawToken : String) (now₁ now₂ : Int) :
    (∀ claims key, (verifyClaim L rawToken now₁ now₂).outcome = Outcome.ok claims key →
      ∃ jwtToken iss jti eth signature,
        Recovered L rawToken jwtToken claims iss jti eth signature key ∧
        L.Verify jwtToken.method jwtToken.signingString jwtToken.signature key = none ∧
        Call.Verify jwtToken.signingString jwtToken.signature key ∈
          (verifyClaim L rawToken now₁ now₂).calls ∧
        ∀ ss sg k, Call.Verify ss sg k ∈ (verifyClaim L rawToken now₁ now₂).calls → k = key) ∧
    (∀ jwtToken payload iss jti eth signature pubkey msg,
      Recovered L rawToken jwtToken payload iss jti eth signature pubkey →
      ToLower L iss = ToLower L (L.Hex (L.PubkeyToAddress pubkey)) →
      L.Verify jwtToken.method jwtToken.signingString jwtToken.signature pubkey = some msg →
      ∃ e, (verifyClaim L rawToken now₁ now₂).outcome = Outcome.error (VerifyError.jwtParse e) ∧
        ValidationFlag.signatureInvalid ∈ e.errors) := by
  constructor
  · intro claims key h
    obtain ⟨jwtToken, iss, jti, eth, signature, R, _, hs, _, _, hcalls⟩ :=
      verifyClaim_ok_inv L rawToken now₁ now₂ claims key h
    refine ⟨jwtToken, iss, jti, eth, signature, R, hs, ?_, ?_⟩
    · rw [hcalls]
      simp [verifierCalls]
    · intro ss sg k hk
      rw [hcalls] at hk
      simp only [recoveryCalls, verifierCalls, List.mem_append, List.mem_cons,
        List.mem_singleton, List.mem_nil_iff, or_false, Call.Verify.injEq, false_or,
        reduceCtorEq] at hk
      exact hk.2.2
  · intro jwtToken payload iss jti eth signature pubkey msg R hb hs
    rw [verifyClaim_match L rawToken now₁ now₂ jwtToken payload iss jti eth
      signature pubkey R hb, hs]
    cases payload.Valid now₁ with
    | none => exact ⟨_, rfl, by simp⟩
    | some e => exact ⟨_, rfl, by simp⟩

/-- The scenario: the first two stages succeed on `Sample.tokenForged`, which
carries the payload of `Sample.tokenGood` under a signature by another key. -/
theorem Sample.recovered_tokenForged :
    Recovered Sample.lib Sample.tokenForged
      ⟨"ES256", some (Sample.payload ("0x" ++ Sample.proofDigits) 1700000000),
        Sample.header ++ "." ++ Sample.segGood, Sample.sigForged⟩
      (Sample.payload ("0x" ++ Sample.proofDigits) 1700000000)
      Sample.issuer "abc123" ("0x" ++ Sample.proofDigits) Sample.proofBytes Sample.pubkey := by
  set_option maxRecDepth 100000 in
  exact ⟨by rfl, by rfl, by rfl, by rfl, by rfl, by rfl, by rfl⟩

set_option maxRecDepth 100000 in
theorem verified_with_recovered_key_witness :
    (verifyClaim Sample.lib Sample.tokenGood 1600000000 1600000000).outcome
        = Outcome.ok (Sample.payload ("0x" ++ Sample.proofDigits) 1700000000) Sample.pubkey ∧
      (∃ jwtToken iss jti eth signature,
        Recovered Sample.lib Sample.tokenGood jwtToken
          (Sample.payload ("0x" ++ Sample.proofDigits) 1700000000) iss jti eth signature
          Sample.pubkey ∧
        Sample.lib.Verify jwtToken.method jwtToken.signingString jwtToken.signature
          Sample.pubkey = none ∧
        Call.Verify jwtToken.signingString jwtToken.signature Sample.pubkey ∈
          (verifyClaim Sample.lib Sample.tokenGood 1600000000 1600000000).calls ∧
        ∀ ss sg k, Call.Verify ss sg k ∈
          (verifyClaim Sample.lib Sample.tokenGood 1600000000 1600000000).calls →
            k = Sample.pubkey) ∧
      ∃ e, (verifyClaim Sample.lib Sample.tokenForged 1600000000 1600000000).outcome
          = Outcome.error (VerifyError.jwtParse e) ∧
        ValidationFlag.signatureInvalid ∈ e.errors :=
  ⟨by rfl,
    (verified_with_recovered_key Sample.lib Sample.tokenGood 1600000000 1600000000).1
      _ _ (by rfl),
    (verified_with_recovered_key Sample.lib Sample.tokenForged 1600000000 1600000000).2
      _ _ _ _ _ _ _ "crypto/ecdsa: verification error"
      Sample.recovered_tokenForged (by rfl) (by rfl)⟩

/-- C7: a token on which parsing and recovery succeed, whose issuer equals the
derived address after lower-casing, whose signature verifies under the recovered
key and whose temporal claims are valid at both clock readings is accepted:
`verifyClaim` returns the decoded payload itself together with the recovered key,
and `pathVerifyClaim` on a configured backend returns that payload as the
response data. -/
theorem complete_and_pass_through (L : Lib) (rawToken : String) (now₁ now₂ : Int)
    (jwtToken : Token) (payload : MapClaims) (iss jti eth : String) (signature : Bytes)
    (pubkey : PublicKey)
    (h : Recovered L rawToken jwtToken payload iss jti eth signature pubkey)
    (hb : ToLower L iss = ToLower L (L.Hex (L.PubkeyToAddress pubkey)))
    (hs : L.Verify jwtToken.method jwtToken.signingString jwtToken.signature pubkey = none)
    (hv₁ : payload.Valid now₁ = none) (hv₂ : payload.Valid now₂ = none) :
    (verifyClaim L rawToken now₁ now₂).outcome = Outcome.ok payload pubkey ∧
    pathVerifyClaim L none rawToken now₁ now₂ = PathResult.ret (some ⟨payload⟩) none := by
  have ho : (verifyClaim L rawToken now₁ now₂).outcome = Outcome.ok payload pubkey := by
    rw [verifyClaim_match L rawToken now₁ now₂ jwtToken payload iss jti eth
      signature pubkey h hb, hv₁, hs]
    simp only [hv₂]
  refine ⟨ho, ?_⟩
  simp only [pathVerifyClaim, ho]

set_option maxRecDepth 100000 in
theorem complete_and_pass_through_witness :
    Recovered Sample.lib Sample.tokenGood
      ⟨"ES256", some (Sample.payload ("0x" ++ Sample.proofDigits) 1700000000),
        Sample.header ++ "." ++ Sample.segGood, Sample.sigGood⟩
      (Sample.payload ("0x" ++ Sample.proofDigits) 1700000000)
      Sample.issuer "abc123" ("0x" ++ Sample.proofDigits) Sample.proofBytes Sample.pubkey ∧
    (verifyClaim Sample.lib Sample.tokenGood 1600000000 1600000001).outcome
      = Outcome.ok (Sample.payload ("0x" ++ Sample.proofDigits) 1700000000) Sample.pubkey ∧
    pathVerifyClaim Sample.lib none Sample.tokenGood 1600000000 1600000001
      = PathResult.ret (some ⟨Sample.payload ("0x" ++ Sample.proofDigits) 1700000000⟩) none :=
  ⟨Sample.recovered_tokenGood,
    (complete_and_pass_through Sample.lib Sample.tokenGood 1600000000 1600000001 _ _ _ _ _ _ _
      Sample.recovered_tokenGood (by rfl) (by rfl) (by rfl) (by rfl)).1,
    (complete_and_pass_through Sample.lib Sample.tokenGood 1600000000 1600000001 _ _ _ _ _ _ _
      Sample.recovered_tokenGood (by rfl) (by rfl) (by rfl) (by rfl)).2⟩

/-! ## Temporal validity and the clock -/

theorem Valid_eq_none_iff (m : MapClaims) (now : Int) :
    m.Valid now = none ↔
      m.VerifyExpiresAt now false = true ∧ m.VerifyIssuedAt now false = true ∧
        m.VerifyNotBefore now false = true := by
  unfold MapClaims.Valid
  by_cases h1 : m.VerifyExpiresAt now false = true <;>
    by_cases h2 : m.VerifyIssuedAt now false = true <;>
    by_cases h3 : m.VerifyNotBefore now false = true <;>
    simp [h1, h2, h3, ValidationError.valid]

theorem Valid_ne_none_of_expired (m : MapClaims) (now exp : Int)
    (hget : m.get "exp" = some (Value.number exp)) (h0 : exp ≠ 0) (hlt : exp < now) :
    m.Valid now ≠ none := by
  intro h
  have h1 := ((Valid_eq_none_iff m now).mp h).1
  simp [MapClaims.VerifyExpiresAt, hget, verifyExp, h0] at h1
  omega

theorem Valid_ne_none_of_not_yet (m : MapClaims) (now nbf : Int)
    (hget : m.get "nbf" = some (Value.number nbf)) (h0 : nbf ≠ 0) (hlt : now < nbf) :
    m.Valid now ≠ none := by
  intro h
  have h3 := ((Valid_eq_none_iff m now).mp h).2.2
  simp [MapClaims.VerifyNotBefore, hget, verifyNbf, h0] at h3
  omega

/-- C10 (amended): for a token that passed parsing, recovery, the issuer binding
and the signature check, `verifyClaim` succeeds exactly when `MapClaims.Valid`
accepts the payload at both clock readings, and returns an error and no claims
otherwise.  In particular a numeric non-zero `exp` earlier than a clock reading,
or a numeric non-zero `nbf` later than one, makes it return an error. -/
theorem temporal_validity_enforced (L : Lib) (rawToken : String) (now₁ now₂ : Int)
    (jwtToken : Token) (payload : MapClaims) (iss jti eth : String) (signature : Bytes)
    (pubkey : PublicKey)
    (h : Recovered L rawToken jwtToken payload iss jti eth signature pubkey)
    (hb : ToLower L iss = ToLower L (L.Hex (L.PubkeyToAddress pubkey)))
    (hs : L.Verify jwtToken.method jwtToken.signingString jwtToken.signature pubkey = none) :
    ((verifyClaim L rawToken now₁ now₂).outcome = Outcome.ok payload pubkey ↔
      payload.Valid now₁ = none ∧ payload.Valid now₂ = none) ∧
    (¬ (payload.Valid now₁ = none ∧ payload.Valid now₂ = none) →
      ∃ e, (verifyClaim L rawToken now₁ now₂).outcome = Outcome.error e) ∧
    (∀ exp, payload.get "exp" = some (Value.number exp) → exp ≠ 0 →
      exp < now₁ ∨ exp < now₂ →
      ∃ e, (verifyClaim L rawToken now₁ now₂).outcome = Outcome.error e) ∧
    (∀ nbf, payload.get "nbf" = some (Value.number nbf) → nbf ≠ 0 →
      now₁ < nbf ∨ now₂ < nbf →
      ∃ e, (verifyClaim L rawToken now₁ now₂).outcome = Outcome.error e) := by
  have hm := verifyClaim_match L rawToken now₁ now₂ jwtToken payload iss jti eth
    signature pubkey h hb
  rw [hs] at hm
  have hiff : (verifyClaim L rawToken now₁ now₂).outcome = Outcome.ok payload pubkey ↔
      payload.Valid now₁ = none ∧ payload.Valid now₂ = none := by
    rw [hm]
    cases h1 : payload.Valid now₁ <;> cases h2 : payload.Valid now₂ <;> simp
  have herr : ¬ (payload.Valid now₁ = none ∧ payload.Valid now₂ = none) →
      ∃ e, (verifyClaim L rawToken now₁ now₂).outcome = Outcome.error e := by
    rw [hm]
    cases h1 : payload.Valid now₁ <;> cases h2 : payload.Valid now₂ <;> simp
  refine ⟨hiff, herr, ?_, ?_⟩
  · intro exp hget h0 hlt
    apply herr
    rintro ⟨hv₁, hv₂⟩
    rcases hlt with hlt | hlt
    · exact Valid_ne_none_of_expired payload now₁ exp hget h0 hlt hv₁
    · exact Valid_ne_none_of_expired payload now₂ exp hget h0 hlt hv₂
  · intro nbf hget h0 hlt
    apply herr
    rintro ⟨hv₁, hv₂⟩
    rcases hlt with hlt | hlt
    · exact Valid_ne_none_of_not_yet payload now₁ nbf hget h0 hlt hv₁
    · exact Valid_ne_none_of_not_yet payload now₂ nbf hget h0 hlt hv₂

set_option maxRecDepth 100000 in
theorem temporal_validity_enforced_witness :
    Recovered Sample.lib Sample.tokenGood
      ⟨"ES256", some (Sample.payload ("0x" ++ Sample.proofDigits) 1700000000),
        Sample.header ++ "." ++ Sample.segGood, Sample.sigGood⟩
      (Sample.payload ("0x" ++ Sample.proofDigits) 1700000000)
      Sample.issuer "abc123" ("0x" ++ Sample.proofDigits) Sample.proofBytes Sample.pubkey ∧
    ∃ e, (verifyClaim Sample.lib Sample.tokenGood 1800000000 1800000000).outcome
      = Outcome.error e :=
  ⟨Sample.recovered_tokenGood,
    (temporal_validity_enforced Sample.lib Sample.tokenGood 1800000000 1800000000
      _ _ _ _ _ _ _ Sample.recovered_tokenGood (by rfl) (by rfl)).2.2.1
      1700000000 (by rfl) (by decide) (Or.inl (by decide))⟩

set_option maxRecDepth 100000 in
/-- C10, as stated, fails: the token `Sample.tokenZeroExp` carries `exp` 0, an expiry in the past of the
clock reading 1800000000, passes every earlier stage, and is accepted. -/
theorem zero_expiry_accepted :
    (Sample.payload ("0x" ++ Sample.proofDigits) 0).get "exp" = some (Value.number 0) ∧
    (0 : Int) < 1800000000 ∧
    (verifyClaim Sample.lib Sample.tokenZeroExp 1800000000 1800000000).outcome
      = Outcome.ok (Sample.payload ("0x" ++ Sample.proofDigits) 0) Sample.pubkey :=
  ⟨by rfl, by decide, by rfl⟩

/-- C8 (amended): the result of `verifyClaim` is a function of the token and of the
two clock readings, and the clock enters only through the validity of the
payload: two calls on the same token return the same result whenever
`MapClaims.Valid` judges the decoded payload alike at the readings of both
calls (in particular when the readings are equal, or the token does not parse). -/
theorem result_depends_on_clock_through_validity (L : Lib) (rawToken : String)
    (a₁ a₂ b₁ b₂ : Int)
    (h : ∀ t, L.ParseUnverified (tokenWithoutWhitespace rawToken) = Except.ok t →
      t.mapClaims.Valid a₁ = t.mapClaims.Valid b₁ ∧
        t.mapClaims.Valid a₂ = t.mapClaims.Valid b₂) :
    verifyClaim L rawToken a₁ a₂ = verifyClaim L rawToken b₁ b₂ := by
  cases hp : L.ParseUnverified (tokenWithoutWhitespace rawToken) with
  | error e => simp only [verifyClaim, hp]
  | ok jwtToken =>
  obtain ⟨h1, h2⟩ := h jwtToken hp
  cases hc : jwtToken.claims with
  | none => simp only [verifyClaim, hp, hc]
  | some payload =>
  cases hi : assertString (payload.get "iss") with
  | none => simp only [verifyClaim, hp, hc, hi]
  | some iss =>
  cases hj : assertString (payload.get "jti") with
  | none => simp only [verifyClaim, hp, hc, hi, hj]
  | some jti =>
  cases he : assertString (payload.get "eth") with
  | none => simp only [verifyClaim, hp, hc, hi, hj, he]
  | some eth =>
  cases hd : hexutilDecode eth with
  | error e => simp only [verifyClaim, hp, hc, hi, hj, he, hd]
  | ok signature =>
  cases hr : SigToPub L (L.hashKeccak256 jti) signature with
  | error e => simp only [verifyClaim, hp, hc, hi, hj, he, hd, hr]
  | ok pubkey =>
  have R : Recovered L rawToken jwtToken payload iss jti eth signature pubkey :=
    ⟨hp, hc, hi, hj, he, hd, hr⟩
  have hm : jwtToken.mapClaims = payload := by simp [Token.mapClaims, hc]
  rw [hm] at h1 h2
  by_cases hb : ToLower L iss = ToLower L (L.Hex (L.PubkeyToAddress pubkey))
  · rw [verifyClaim_match L rawToken a₁ a₂ jwtToken payload iss jti eth signature pubkey R hb,
      verifyClaim_match L rawToken b₁ b₂ jwtToken payload iss jti eth signature pubkey R hb,
      h1, h2]
  · rw [verifyClaim_mismatch L rawToken a₁ a₂ jwtToken payload iss jti eth signature pubkey
        R hb,
      verifyClaim_mismatch L rawToken b₁ b₂ jwtToken payload iss jti eth signature pubkey
        R hb]

set_option maxRecDepth 100000 in
theorem result_depends_on_clock_through_validity_witness :
    verifyClaim Sample.lib Sample.tokenGood 1600000000 1600000001
      = verifyClaim Sample.lib Sample.tokenGood 1650000000 1650000002 :=
  result_depends_on_clock_through_validity Sample.lib Sample.tokenGood
    1600000000 1600000001 1650000000 1650000002
    (fun t ht => by
      have ht' : t = ⟨"ES256", some (Sample.payload ("0x" ++ Sample.proofDigits) 1700000000),
          Sample.header ++ "." ++ Sample.segGood, Sample.sigGood⟩ :=
        (Except.ok.inj (ht.symm.trans Sample.recovered_tokenGood.parsed))
      subst ht'
      exact ⟨by rfl, by rfl⟩)

set_option maxRecDepth 100000 in
/-- C8, as stated, fails: the same token is accepted at one clock reading and rejected as expired at a
later one. -/
theorem result_changes_with_clock :
    (verifyClaim Sample.lib Sample.tokenGood 1600000000 1600000000).outcome
      = Outcome.ok (Sample.payload ("0x" ++ Sample.proofDigits) 1700000000) Sample.pubkey ∧
    (verifyClaim Sample.lib Sample.tokenGood 1800000000 1800000000).outcome
      = Outcome.error
          (VerifyError.jwtParse ⟨some "Token is expired", [ValidationFlag.expired]⟩) :=
  ⟨by rfl, by rfl⟩

/-! ## The proof field -/

theorem SigToPub_error_of_length (L : Lib) (hash sig : Bytes) (h : sig.length ≠ 65) :
    ∃ e, SigToPub L hash sig = Except.error e := by
  unfold SigToPub
  by_cases h32 : hash.length ≠ 32
  · exact ⟨_, if_pos h32⟩
  · exact ⟨RecoverError.invalidSignatureLen, by rw [if_neg h32, if_pos h]⟩

theorem has0x_of_hex_digits (ds : List Char) (h : ∀ c ∈ ds, isHexDigit c = true) :
    has0x ds = false := by
  match ds, h with
  | [], _ => rfl
  | [a], _ => simp [has0x]
  | a :: b :: rest, h =>
    have hb : isHexDigit b = true := h b (by simp)
    have hx : b ≠ 'x' := by
      intro hbx
      rw [hbx] at hb
      exact absurd hb (by decide)
    have hX : b ≠ 'X' := by
      intro hbx
      rw [hbx] at hb
      exact absurd hb (by decide)
    simp [has0x, hx, hX]

theorem hexDecodeString_of_hex_digits (n : Nat) :
    ∀ ds : List Char, ds.length = 2 * n → (∀ c ∈ ds, isHexDigit c = true) →
      ∃ bs, hexDecodeString ds = Except.ok bs ∧ bs.length = n := by
  induction n with
  | zero =>
    intro ds hlen _
    have : ds = [] := List.length_eq_zero.mp (by simpa using hlen)
    subst this
    exact ⟨[], rfl, rfl⟩
  | succ n ih =>
    intro ds hlen hall
    match ds, hlen, hall with
    | [], hlen, _ => simp at hlen
    | [a], hlen, _ =>
      simp only [List.length_singleton] at hlen
      omega
    | p :: q :: rest, hlen, hall =>
      have hp : isHexDigit p = true := hall p (by simp)
      have hq : isHexDigit q = true := hall q (by simp)
      obtain ⟨a, ha⟩ := Option.isSome_iff_exists.mp hp
      obtain ⟨b, hb⟩ := Option.isSome_iff_exists.mp hq
      obtain ⟨bs, hbs, hl⟩ := ih rest (by simp only [List.length_cons] at hlen; omega)
        (fun c hc => hall c (by simp [hc]))
      refine ⟨(a * 16 + b) :: bs, ?_, by simp [hl]⟩
      simp only [hexDecodeString, ha, hb, hbs]

theorem hexDecodeString_ok_shape (n : Nat) :
    ∀ (ds : List Char) (bs : Bytes), ds.length ≤ n → hexDecodeString ds = Except.ok bs →
      (∀ c ∈ ds, isHexDigit c = true) ∧ ds.length = 2 * bs.length := by
  induction n with
  | zero =>
    intro ds bs hlen h
    have hnil : ds = [] := List.length_eq_zero.mp (Nat.le_zero.mp hlen)
    subst hnil
    simp only [hexDecodeString, Except.ok.injEq] at h
    subst h
    simp
  | succ n ih =>
    intro ds bs hlen h
    match ds, hlen, h with
    | [], _, h =>
      simp only [hexDecodeString, Except.ok.injEq] at h
      subst h
      simp
    | [c], _, h =>
      simp only [hexDecodeString] at h
      cases hc : fromHexChar c <;> simp [hc] at h
    | p :: q :: rest, hlen, h =>
      simp only [hexDecodeString] at h
      cases hp : fromHexChar p with
      | none => simp [hp] at h
      | some a =>
        cases hq : fromHexChar q with
        | none => simp [hp, hq] at h
        | some b =>
          cases hr : hexDecodeString rest with
          | error e => simp [hp, hq, hr] at h
          | ok bs' =>
            simp only [hp, hq, hr, Except.ok.injEq] at h
            subst h
            obtain ⟨hall, hl⟩ := ih rest bs'
              (by simp only [List.length_cons] at hlen; omega) hr
            refine ⟨?_, by simp only [List.length_cons]; omega⟩
            intro c hc
            simp only [List.mem_cons] at hc
            rcases hc with hc | hc | hc
            · simp [hc, isHexDigit, hp]
            · simp [hc, isHexDigit, hq]
            · exact hall c hc

/-- What `hexutil.Decode` accepts: `0x` or `0X` followed by an even number of
hexadecimal digits, two for each byte of the result. -/
theorem hexutilDecode_ok_shape (input : String) (bs : Bytes)
    (h : hexutilDecode input = Except.ok bs) :
    has0x input.data = true ∧ (∀ c ∈ input.data.drop 2, isHexDigit c = true) ∧
      (input.data.drop 2).length = 2 * bs.length := by
  unfold hexutilDecode at h
  by_cases he : input.data.isEmpty = true
  · simp [he] at h
  · by_cases hx : has0x input.data = true
    · simp only [he, hx, Bool.false_eq_true, if_false, Bool.not_true] at h
      exact ⟨hx, hexDecodeString_ok_shape _ _ bs (le_refl _) h⟩
    · simp [he, hx] at h

/-- C4: when the payload carries string `iss`, `jti` and `eth` and the proof fails
to decode, or decodes to a byte string whose length is not 65, `verifyClaim`
returns an error raised by the hex decoding or by the key recovery; the run
contains no address derivation, no verified parse and no signature check. -/
theorem malformed_proof_rejected (L : Lib) (rawToken : String) (now₁ now₂ : Int)
    (jwtToken : Token) (payload : MapClaims) (iss jti eth : String)
    (hp : L.ParseUnverified (tokenWithoutWhitespace rawToken) = Except.ok jwtToken)
    (hc : jwtToken.claims = some payload)
    (hi : assertString (payload.get "iss") = some iss)
    (hj : assertString (payload.get "jti") = some jti)
    (he : assertString (payload.get "eth") = some eth)
    (hbad : (∃ e, hexutilDecode eth = Except.error e) ∨
      (∃ s, hexutilDecode eth = Except.ok s ∧ s.length ≠ 65)) :
    ((∃ e, (verifyClaim L rawToken now₁ now₂).outcome
          = Outcome.error (VerifyError.hexutil e)) ∨
      (∃ e, (verifyClaim L rawToken now₁ now₂).outcome
          = Outcome.error (VerifyError.sigToPub e))) ∧
    (∀ k, Call.PubkeyToAddress k ∉ (verifyClaim L rawToken now₁ now₂).calls) ∧
    (∀ t, Call.jwtParse t ∉ (verifyClaim L rawToken now₁ now₂).calls) ∧
    (∀ ss sg k, Call.Verify ss sg k ∉ (verifyClaim L rawToken now₁ now₂).calls) := by
  rcases hbad with ⟨e, hd⟩ | ⟨s, hd, hlen⟩
  · have hrun : verifyClaim L rawToken now₁ now₂ =
        ⟨[Call.ParseUnverified (tokenWithoutWhitespace rawToken), Call.hashKeccak256 jti,
            Call.hexutilDecode eth], Outcome.error (VerifyError.hexutil e)⟩ := by
      simp [verifyClaim, hp, hc, hi, hj, he, hd]
    rw [hrun]
    exact ⟨Or.inl ⟨e, rfl⟩, by simp, by simp, by simp⟩
  · obtain ⟨e, hr⟩ := SigToPub_error_of_length L (L.hashKeccak256 jti) s hlen
    have hrun : verifyClaim L rawToken now₁ now₂ =
        ⟨[Call.ParseUnverified (tokenWithoutWhitespace rawToken), Call.hashKeccak256 jti,
            Call.hexutilDecode eth, Call.SigToPub (L.hashKeccak256 jti) s],
          Outcome.error (VerifyError.sigToPub e)⟩ := by
      simp [verifyClaim, hp, hc, hi, hj, he, hd, hr]
    rw [hrun]
    exact ⟨Or.inr ⟨e, rfl⟩, by simp, by simp, by simp⟩

set_option maxRecDepth 100000 in
theorem malformed_proof_rejected_witness :
    (∃ s, hexutilDecode ⟨("0x" ++ Sample.proofDigits).data.take 130⟩ = Except.ok s ∧
      s.length ≠ 65) ∧
    (verifyClaim Sample.lib Sample.tokenShortProof 1600000000 1600000000).outcome
      = Outcome.error (VerifyError.sigToPub RecoverError.invalidSignatureLen) ∧
    ∀ t, Call.jwtParse t ∉
      (verifyClaim Sample.lib Sample.tokenShortProof 1600000000 1600000000).calls :=
  ⟨⟨Sample.proofBytes.take 64, by rfl, by decide⟩, by rfl,
    (malformed_proof_rejected Sample.lib Sample.tokenShortProof 1600000000 1600000000
      ⟨"ES256",
        some (Sample.payload ⟨("0x" ++ Sample.proofDigits).data.take 130⟩ 1700000000),
        Sample.header ++ "." ++ Sample.segShortProof, Sample.sigShortProof⟩
      (Sample.payload ⟨("0x" ++ Sample.proofDigits).data.take 130⟩ 1700000000)
      Sample.issuer "abc123" ⟨("0x" ++ Sample.proofDigits).data.take 130⟩
      (by rfl) (by rfl) (by rfl) (by rfl) (by rfl)
      (Or.inr ⟨Sample.proofBytes.take 64, by rfl, by decide⟩)).2.2.1⟩

/-- C9 (amended): the proof is accepted only with the `0x` prefix.  A proof
written as 130 bare hexadecimal digits is refused by `hexutil.Decode` for its
missing prefix, and `verifyClaim` returns that error; the same digits after `0x`
decode to 65 bytes. -/
theorem proof_needs_0x (L : Lib) (rawToken : String) (now₁ now₂ : Int)
    (jwtToken : Token) (payload : MapClaims) (iss jti digits : String)
    (hp : L.ParseUnverified (tokenWithoutWhitespace rawToken) = Except.ok jwtToken)
    (hc : jwtToken.claims = some payload)
    (hi : assertString (payload.get "iss") = some iss)
    (hj : assertString (payload.get "jti") = some jti)
    (he : assertString (payload.get "eth") = some digits)
    (hd : ∀ c ∈ digits.data, isHexDigit c = true) (hlen : digits.data.length = 130) :
    hexutilDecode digits = Except.error HexError.missing0x ∧
    (verifyClaim L rawToken now₁ now₂).outcome
      = Outcome.error (VerifyError.hexutil HexError.missing0x) ∧
    ∃ bs, hexutilDecode ("0x" ++ digits) = Except.ok bs ∧ bs.length = 65 := by
  have hne : digits.data.isEmpty = false := by
    cases hdd : digits.data with
    | nil => rw [hdd] at hlen; simp at hlen
    | cons c cs => rfl
  have hbare : hexutilDecode digits = Except.error HexError.missing0x := by
    simp [hexutilDecode, hne, has0x_of_hex_digits digits.data hd]
  refine ⟨hbare, ?_, ?_⟩
  · simp [verifyClaim, hp, hc, hi, hj, he, hbare]
  · obtain ⟨bs, hbs, hl⟩ := hexDecodeString_of_hex_digits 65 digits.data (by omega) hd
    refine ⟨bs, ?_, hl⟩
    have hdata : ("0x" ++ digits).data = '0' :: 'x' :: digits.data := by
      rw [String.data_append]
      rfl
    simp [hexutilDecode, hdata, has0x, hbs]

set_option maxRecDepth 100000 in
theorem proof_needs_0x_witness :
    (∀ c ∈ Sample.proofDigits.data, isHexDigit c = true) ∧
    Sample.proofDigits.data.length = 130 ∧
    (verifyClaim Sample.lib Sample.tokenBareProof 1600000000 1600000000).outcome
      = Outcome.error (VerifyError.hexutil HexError.missing0x) :=
  ⟨by decide, by decide,
    (proof_needs_0x Sample.lib Sample.tokenBareProof 1600000000 1600000000
      ⟨"ES256", some (Sample.payload Sample.proofDigits 1700000000),
        Sample.header ++ "." ++ Sample.segBareProof, Sample.sigBareProof⟩
      (Sample.payload Sample.proofDigits 1700000000)
      Sample.issuer "abc123" Sample.proofDigits
      (by rfl) (by rfl) (by rfl) (by rfl) (by rfl) (by decide) (by decide)).2.1⟩

set_option maxRecDepth 100000 in
/-- C9, as stated, fails: the same 130 digits decode with the prefix and are refused without it, and
the two tokens that differ only in this (each signed by the same key) end
differently: one is accepted, the other rejected at the hex decoding. -/
theorem bare_proof_rejected :
    hexutilDecode ("0x" ++ Sample.proofDigits) = Except.ok Sample.proofBytes ∧
    hexutilDecode Sample.proofDigits = Except.error HexError.missing0x ∧
    (verifyClaim Sample.lib Sample.tokenGood 1600000000 1600000000).outcome
      = Outcome.ok (Sample.payload ("0x" ++ Sample.proofDigits) 1700000000) Sample.pubkey ∧
    (verifyClaim Sample.lib Sample.tokenBareProof 1600000000 1600000000).outcome
      = Outcome.error (VerifyError.hexutil HexError.missing0x) :=
  ⟨by rfl, by rfl, by rfl, by rfl⟩

/-! ## Missing fields and the boundary -/

theorem assertString_eq_none_iff (v : Option Value) :
    assertString v = none ↔ ∀ s, v ≠ some (Value.string s) := by
  cases v with
  | none => simp [assertString]
  | some x => cases x <;> simp [assertString]

/-- When the payload lacks a string `iss`, `jti` or `eth`, the type assertion on
the first such field panics, and the panic propagates through
`pathVerifyClaim`. -/
theorem verifyClaim_panics_of_missing_field (L : Lib) (rawToken : String) (now₁ now₂ : Int)
    (jwtToken : Token) (payload : MapClaims)
    (hp : L.ParseUnverified (tokenWithoutWhitespace rawToken) = Except.ok jwtToken)
    (hc : jwtToken.claims = some payload)
    (hmiss : assertString (payload.get "iss") = none ∨
      assertString (payload.get "jti") = none ∨ assertString (payload.get "eth") = none) :
    ∃ field, (verifyClaim L rawToken now₁ now₂).outcome = Outcome.panic field ∧
      pathVerifyClaim L none rawToken now₁ now₂ = PathResult.panic field := by
  have key : ∃ field, (verifyClaim L rawToken now₁ now₂).outcome = Outcome.panic field := by
    cases hi : assertString (payload.get "iss") with
    | none => exact ⟨"iss", by simp [verifyClaim, hp, hc, hi]⟩
    | some iss =>
    cases hj : assertString (payload.get "jti") with
    | none => exact ⟨"jti", by simp [verifyClaim, hp, hc, hi, hj]⟩
    | some jti =>
    cases he : assertString (payload.get "eth") with
    | none => exact ⟨"eth", by simp [verifyClaim, hp, hc, hi, hj, he]⟩
    | some eth => simp [hi, hj, he] at hmiss
  obtain ⟨field, hf⟩ := key
  exact ⟨field, hf, by simp only [pathVerifyClaim, hf]⟩

/-- Every error `verifyClaim` returns is replaced by one generic error at the
boundary. -/
theorem pathVerifyClaim_of_error (L : Lib) (rawToken : String) (now₁ now₂ : Int)
    (e : VerifyError) (h : (verifyClaim L rawToken now₁ now₂).outcome = Outcome.error e) :
    pathVerifyClaim L none rawToken now₁ now₂
      = PathResult.ret none (some "Error verifying token") := by
  simp only [pathVerifyClaim, h]

set_option maxRecDepth 100000 in
/-- C3, at the token `Sample.tokenEmpty` (payload: the empty object): the token
parses, the field `iss` is absent, and `verifyClaim` ends in the panic of the
type assertion on `iss` instead of returning an error. -/
theorem missing_field_panics :
    Sample.lib.ParseUnverified (tokenWithoutWhitespace Sample.tokenEmpty)
      = Except.ok ⟨"ES256", some [], Sample.header ++ "." ++ Sample.segEmpty,
          Sample.sigEmpty⟩ ∧
    MapClaims.get [] "iss" = none ∧
    (verifyClaim Sample.lib Sample.tokenEmpty 1600000000 1600000000).outcome
      = Outcome.panic "iss" :=
  ⟨by rfl, by rfl, by rfl⟩

set_option maxRecDepth 100000 in
/-- C6, at two failing tokens on a configured backend: for the token with a
64-byte proof `pathVerifyClaim` returns no response and the generic error, for
the token with an empty payload it ends in a panic, so the two failures are told
apart by the caller. -/
theorem boundary_failures_differ :
    pathVerifyClaim Sample.lib none Sample.tokenShortProof 1600000000 1600000000
      = PathResult.ret none (some "Error verifying token") ∧
    pathVerifyClaim Sample.lib none Sample.tokenEmpty 1600000000 1600000000
      = PathResult.panic "iss" :=
  ⟨by rfl, by rfl⟩

end Trustee
